import Mathlib

set_option autoImplicit false

/-!
Shallow embedding of the vu3.0 repository's validation, autosave, persistence
and share-link code, together with theorems checking the specification's
claims about it.

Embedded source files:
* `src/unnamed/part_002` — `DataValidator.validateText` / `validateJson`;
* `src/project/src/services/enhancedPortfolioDataService.ts` — `saveElement`,
  `autoSave` (debounce maps), `getElement`, `bulkSave`;
* `src/unnamed/part_006` — SQL `upsert_portfolio_data`, `get_portfolio_data`,
  `bulk_update_portfolio_data` and the `validate_portfolio_data` /
  `create_portfolio_backup` triggers;
* `src/src/services/realTimeFormService.ts` — `validateShareLink`;
* `src/supabase/migrations/20250629062812_weathered_paper.sql` — SQL
  `validate_share_link`.

Strings are modelled as `List Char`; machine timestamps as `Int` (an ISO
timestamp string and the `Date` it parses to are in monotone bijection, so
`new Date(a) < new Date(b)` is embedded as integer `<`).
-/

namespace VU

/-! ### Character classes used by the JS regexes in `DataValidator.validateText` -/

/-- JS `\s` whitespace class (ASCII part; all characters handled in this
development are ASCII).  Used by `trim()` and by `\s*` in the event-handler
regex of `validateText`. -/
def isSpaceJS (c : Char) : Bool :=
  c = ' ' || c = '\t' || c = '\n' || c = '\r' || c = '\x0b' || c = '\x0c'

/-- JS `\w` word-character class `[A-Za-z0-9_]`. -/
def isWordChar (c : Char) : Bool :=
  ('a' ≤ c && c ≤ 'z') || ('A' ≤ c && c ≤ 'Z') || ('0' ≤ c && c ≤ '9') || c = '_'

/-- Case-insensitive character comparison (the `i` flag on the regexes). -/
def ciEq (a b : Char) : Bool := a.toLower == b.toLower

/-- Does the pattern `p` match case-insensitively at the head of `l`? -/
def ciStarts : List Char → List Char → Bool
  | [], _ => true
  | _ :: _, [] => false
  | p :: ps, c :: cs => ciEq p c && ciStarts ps cs

/-! ### The three removal regexes of `validateText`

`value.replace(/<script[^>]*>.*?<\/script>/gi, '')`,
`.replace(/javascript:/gi, '')` and `.replace(/on\w+\s*=/gi, '')`.

Each regex is embedded as a matcher, `List Char → Option Nat`, which returns
the total length (≥ 1) of the match at the head of its input, or `none`.
`replaceAll` then implements a global (`g` flag) replace-by-empty: scan left
to right, at each position try the matcher; on a match drop the matched
characters and continue after them (JS `String.replace` does not rescan the
produced text), otherwise keep the character and move one position right.
-/

/-- Worker for `replaceAll`, structurally recursive on a fuel argument.
Every step consumes at least the head character, so fuel equal to the input
length always suffices and the `0` fallback is never reached from
`replaceAll`. -/
def replaceAllGo (pat : List Char → Option Nat) : Nat → List Char → List Char
  | _, [] => []
  | 0, l => l
  | fuel + 1, c :: cs =>
    match pat (c :: cs) with
    | some m => replaceAllGo pat fuel (cs.drop (m - 1))
    | none => c :: replaceAllGo pat fuel cs

/-- Global regex replace-by-empty-string over a matcher returning match
lengths.  Matchers never return `some 0` (every pattern here consumes at
least one character). -/
def replaceAll (pat : List Char → Option Nat) (l : List Char) : List Char :=
  replaceAllGo pat l.length l

/-- Matcher for `/javascript:/gi` (11 characters, case-insensitive). -/
def jsMatch (l : List Char) : Option Nat :=
  if ciStarts "javascript:".data l then some 11 else none

/-- Length of a maximal `\w+` run at the head of the input. -/
def takeWordLen : List Char → Nat
  | [] => 0
  | c :: cs => if isWordChar c then takeWordLen cs + 1 else 0

/-- Length of a maximal `\s*` run at the head of the input. -/
def takeSpaceLen : List Char → Nat
  | [] => 0
  | c :: cs => if isSpaceJS c then takeSpaceLen cs + 1 else 0

/-- Matcher for `/on\w+\s*=/gi`.  After the literal `on`, the maximal word
run (which must be non-empty) followed by the maximal whitespace run must be
followed by `=`; a shorter word or whitespace run cannot succeed, because the
character after a cut-short run is a word (resp. whitespace) character and
not `=`, so greedy-with-backtracking reduces to this single candidate. -/
def onMatch (l : List Char) : Option Nat :=
  if ciStarts "on".data l then
    let rest := l.drop 2
    let w := takeWordLen rest
    if w = 0 then none
    else
      let rest2 := rest.drop w
      let s := takeSpaceLen rest2
      match (rest2.drop s).head? with
      | some '=' => some (2 + w + s + 1)
      | _ => none
  else none

/-- Scan `[^>]*>`: length up to and including the first `>`; `none` when the
input has no `>`.  A shorter extent of `[^>]*` cannot succeed (the next
character would be a non-`>` character where the regex requires `>`). -/
def scanAttrs : List Char → Option Nat
  | [] => none
  | c :: cs => if c = '>' then some 1 else (scanAttrs cs).map (· + 1)

/-- Scan the lazy `.*?<\/script>` (case-insensitive close tag, `.` does not
match a newline): length through the earliest close tag, `none` when a
newline or the end of input is reached first. -/
def scanBody : List Char → Option Nat
  | c :: cs =>
    if ciStarts "</script>".data (c :: cs) then some 9
    else if c = '\n' then none
    else (scanBody cs).map (· + 1)
  | [] => none

/-- Matcher for `/<script[^>]*>.*?<\/script>/gi`. -/
def scriptMatch (l : List Char) : Option Nat :=
  if ciStarts "<script".data l then
    match scanAttrs (l.drop 7) with
    | none => none
    | some a =>
      match scanBody (l.drop (7 + a)) with
      | none => none
      | some b => some (7 + a + b)
  else none

/-- `value.replace(/<script[^>]*>.*?<\/script>/gi, '')`. -/
def removeScriptTags (l : List Char) : List Char := replaceAll scriptMatch l

/-- `.replace(/javascript:/gi, '')`. -/
def removeJsProtocol (l : List Char) : List Char := replaceAll jsMatch l

/-- `.replace(/on\w+\s*=/gi, '')`. -/
def removeEventHandlers (l : List Char) : List Char := replaceAll onMatch l

/-! ### `trim()` and the four HTML escapes -/

/-- Leading-whitespace removal of JS `trim()`. -/
def trimLeft : List Char → List Char
  | [] => []
  | c :: cs => if isSpaceJS c then trimLeft cs else c :: cs

/-- Trailing-whitespace removal of JS `trim()`: a character is dropped iff it
is whitespace and everything after it is dropped. -/
def trimRight : List Char → List Char
  | [] => []
  | c :: cs =>
    if trimRight cs = [] then (if isSpaceJS c then [] else [c])
    else c :: trimRight cs

/-- JS `String.trim()`. -/
def trimJS (l : List Char) : List Char := trimRight (trimLeft l)

/-- Character-to-block map: every character is replaced by a block of
characters.  Each of the four escape `replace` calls of `validateText` is an
instance (the replaced target is a single character, and no replacement text
contains a later-replaced character, so sequential full-string replaces
coincide with this per-character map). -/
def blockMap (f : Char → List Char) : List Char → List Char
  | [] => []
  | c :: cs => f c ++ blockMap f cs

/-- The apostrophe character `'` (written via its code point to keep the
development free of tricky character literals). -/
def aposChar : Char := Char.ofNat 39

/-- `.replace(/</g, '&lt;')`. -/
def escLt : List Char → List Char :=
  blockMap (fun c => if c = '<' then "&lt;".data else [c])

/-- `.replace(/>/g, '&gt;')`. -/
def escGt : List Char → List Char :=
  blockMap (fun c => if c = '>' then "&gt;".data else [c])

/-- `.replace(/"/g, '&quot;')`. -/
def escQuot : List Char → List Char :=
  blockMap (fun c => if c = '"' then "&quot;".data else [c])

/-- `.replace(/'/g, '&#x27;')`. -/
def escApos : List Char → List Char :=
  blockMap (fun c => if c = aposChar then "&#x27;".data else [c])

/-- The "Basic XSS protection" escape stage of `validateText`. -/
def escapeHtml (l : List Char) : List Char := escApos (escQuot (escGt (escLt l)))

/-- The whole sanitization pipeline of `DataValidator.validateText`:
remove script tags, remove `javascript:` protocols, remove inline event
handlers, `trim()`, then HTML-escape `<`, `>`, `"`, `'`. -/
def sanitizeText (l : List Char) : List Char :=
  escapeHtml (trimJS (removeEventHandlers (removeJsProtocol (removeScriptTags l))))

/-! ### `ValidationResult` and the validators -/

/-- A value handled by `saveElement`: either a JS string or an object
(represented by its JSON serialization). -/
inductive PValue where
  | str (s : List Char)
  | obj (json : List Char)
deriving DecidableEq

/-- `ValidationResult` of `src/unnamed/part_002`. -/
structure ValidationResult where
  isValid : Bool
  errors : List String
  sanitizedValue : Option PValue
deriving DecidableEq

/-- `DataValidator.validateText(value, maxLength = 10000)`.  The
`typeof value !== 'string'` escape is unrepresentable here (the argument is
typed); `!value` is the empty-string test. -/
def validateText (value : List Char) (maxLength : Nat := 10000) : ValidationResult :=
  if value = [] then
    { isValid := false, errors := ["Value must be a non-empty string"],
      sanitizedValue := none }
  else
    let errors := if maxLength < value.length then
        ["Text must be " ++ toString maxLength ++ " characters or less"] else []
    { isValid := errors.isEmpty, errors := errors,
      sanitizedValue := some (.str (sanitizeText value)) }

/-- `DataValidator.validateJson(data, maxSize = 1048576)` on an object given
by its JSON serialization.  A `JSON.stringify` failure (circular object) is
unrepresentable for a serialized value, so only the size check remains. -/
def validateJson (json : List Char) (maxSize : Nat := 1048576) : ValidationResult :=
  if maxSize < json.length then
    { isValid := false,
      errors := ["JSON data too large. Maximum " ++ toString maxSize ++ " bytes allowed"],
      sanitizedValue := none }
  else
    { isValid := true, errors := [], sanitizedValue := some (.obj json) }

example : sanitizeText "<script>alert(1)</script>hi".data = "hi".data := by decide
example : sanitizeText "jjavascript:avascript:".data = "javascript:".data := by decide
example : sanitizeText "javascript:".data = [] := by decide
example : sanitizeText " a<b ".data = "a&lt;b".data := by decide
example : sanitizeText "x onclick = y".data = "x  y".data := by decide

/-! ### Lemmas about the sanitization pipeline -/

/-- A character below code point 65 is fixed by nothing: `toLower` maps onto
it only from itself (letters map into `[97,122]`). -/
theorem toLower_eq_of_nonletter {c x : Char} (hx : x.toNat < 65) (h : c.toLower = x) : c = x := by
  unfold Char.toLower at h
  by_cases hcase : c.toNat ≥ 65 ∧ c.toNat ≤ 90
  · rw [if_pos hcase] at h
    exfalso
    have hvalid : (c.toNat + 32).isValidChar := Or.inl (by omega)
    have hv : (Char.ofNat (c.toNat + 32)).toNat = c.toNat + 32 := by
      rw [Char.ofNat, dif_pos hvalid]
      rfl
    rw [h] at hv
    omega
  · rwa [if_neg hcase] at h

/-- `ciEq '<' c` can only hold for `c = '<'`. -/
theorem ciEq_lt_eq_false {c : Char} (h : c ≠ '<') : ciEq '<' c = false := by
  simp only [ciEq, beq_eq_false_iff_ne]
  intro hcontra
  have hfix : Char.toLower '<' = '<' := by decide
  rw [hfix] at hcontra
  exact h (toLower_eq_of_nonletter (by decide) hcontra.symm)

/-- Decidable check that a matcher finds no match anywhere in `l`. -/
def matchFreeB (pat : List Char → Option Nat) (l : List Char) : Bool :=
  (List.range (l.length + 1)).all fun n => (pat (l.drop n)).isNone

/-- A matcher that matches nowhere leaves `replaceAllGo` as the identity. -/
theorem replaceAllGo_eq_self (pat : List Char → Option Nat) :
    ∀ (l : List Char) (fuel : Nat), (∀ n, pat (l.drop n) = none) →
      replaceAllGo pat fuel l = l := by
  intro l
  induction l with
  | nil => intro fuel _; cases fuel <;> rfl
  | cons c cs ih =>
    intro fuel h
    cases fuel with
    | zero => rfl
    | succ f =>
      have h0 : pat (c :: cs) = none := by simpa using h 0
      have hcs : ∀ n, pat (cs.drop n) = none := fun n => by simpa using h (n + 1)
      simp [replaceAllGo, h0, ih f hcs]

/-- A matcher that matches nowhere leaves `replaceAll` as the identity. -/
theorem replaceAll_eq_self (pat : List Char → Option Nat) (l : List Char)
    (h : ∀ n, pat (l.drop n) = none) : replaceAll pat l = l :=
  replaceAllGo_eq_self pat l l.length h

/-- The boolean no-match check implies no match at every suffix, provided the
matcher rejects the empty input. -/
theorem matchFree_of_matchFreeB (pat : List Char → Option Nat) (hnil : pat [] = none)
    (l : List Char) (h : matchFreeB pat l = true) : ∀ n, pat (l.drop n) = none := by
  intro n
  by_cases hn : n ≤ l.length
  · have := (List.all_eq_true.mp h) n (by simp [List.mem_range]; omega)
    simpa [Option.isNone_iff_eq_none] using this
  · rw [List.drop_eq_nil_of_le (by omega)]
    exact hnil

theorem blockMap_append (f : Char → List Char) (a b : List Char) :
    blockMap f (a ++ b) = blockMap f a ++ blockMap f b := by
  induction a with
  | nil => rfl
  | cons c cs ih => simp [blockMap, ih]

theorem blockMap_eq_self {f : Char → List Char} :
    ∀ {l : List Char}, (∀ c ∈ l, f c = [c]) → blockMap f l = l := by
  intro l
  induction l with
  | nil => intro _; rfl
  | cons c cs ih =>
    intro h
    simp [blockMap, h c (by simp), ih fun d hd => h d (by simp [hd])]

/-- Every character of a single-target escape's output is either a character
of the replacement text or a pass-through character of the input (hence not
the target). -/
theorem mem_escBlockMap {t : Char} {rep : List Char} :
    ∀ {l : List Char} {d : Char},
      d ∈ blockMap (fun c => if c = t then rep else [c]) l →
        d ∈ rep ∨ (d ∈ l ∧ d ≠ t) := by
  intro l
  induction l with
  | nil => intro d h; simp [blockMap] at h
  | cons c cs ih =>
    intro d h
    simp only [blockMap, List.mem_append] at h
    rcases h with h | h
    · by_cases hc : c = t
      · rw [if_pos hc] at h
        exact Or.inl h
      · rw [if_neg hc] at h
        simp at h
        subst h
        exact Or.inr ⟨by simp, hc⟩
    · rcases ih h with h' | ⟨hmem, hne⟩
      · exact Or.inl h'
      · exact Or.inr ⟨by simp [hmem], hne⟩

theorem escBlockMap_eq_self {t : Char} {rep : List Char} {l : List Char} (h : t ∉ l) :
    blockMap (fun c => if c = t then rep else [c]) l = l := by
  apply blockMap_eq_self
  intro c hc
  have hne : c ≠ t := by
    intro e
    subst e
    exact h hc
  exact if_neg hne

/-- The escape stage leaves no literal `<`, `>`, `"` or `'` in its output. -/
theorem escapeHtml_no_specials (l : List Char) :
    ∀ d ∈ escapeHtml l, d ≠ '<' ∧ d ≠ '>' ∧ d ≠ '"' ∧ d ≠ aposChar := by
  intro d hd
  have h4 := @mem_escBlockMap aposChar "&#x27;".data _ _ hd
  rcases h4 with h | ⟨h3mem, hne4⟩
  · exact (by decide :
      ∀ x ∈ "&#x27;".data, x ≠ '<' ∧ x ≠ '>' ∧ x ≠ '"' ∧ x ≠ aposChar) d h
  · have h3 := @mem_escBlockMap '"' "&quot;".data _ _ h3mem
    rcases h3 with h | ⟨h2mem, hne3⟩
    · exact (by decide :
        ∀ x ∈ "&quot;".data, x ≠ '<' ∧ x ≠ '>' ∧ x ≠ '"' ∧ x ≠ aposChar) d h
    · have h2 := @mem_escBlockMap '>' "&gt;".data _ _ h2mem
      rcases h2 with h | ⟨h1mem, hne2⟩
      · exact (by decide :
          ∀ x ∈ "&gt;".data, x ≠ '<' ∧ x ≠ '>' ∧ x ≠ '"' ∧ x ≠ aposChar) d h
      · have h1 := @mem_escBlockMap '<' "&lt;".data _ _ h1mem
        rcases h1 with h | ⟨_, hne1⟩
        · exact (by decide :
            ∀ x ∈ "&lt;".data, x ≠ '<' ∧ x ≠ '>' ∧ x ≠ '"' ∧ x ≠ aposChar) d h
        · exact ⟨hne1, hne2, hne3, hne4⟩

/-- On input free of the four escaped characters, the escape stage is the
identity. -/
theorem escapeHtml_eq_self {l : List Char}
    (h : ∀ d ∈ l, d ≠ '<' ∧ d ≠ '>' ∧ d ≠ '"' ∧ d ≠ aposChar) : escapeHtml l = l := by
  unfold escapeHtml escLt escGt escQuot escApos
  rw [escBlockMap_eq_self (fun hm => (h _ hm).1 rfl),
      escBlockMap_eq_self (fun hm => (h _ hm).2.1 rfl),
      escBlockMap_eq_self (fun hm => (h _ hm).2.2.1 rfl),
      escBlockMap_eq_self (fun hm => (h _ hm).2.2.2 rfl)]

/-! ### Trim lemmas -/

theorem trimLeft_eq_self {l : List Char}
    (h : ∀ c, l.head? = some c → isSpaceJS c = false) : trimLeft l = l := by
  cases l with
  | nil => rfl
  | cons c cs => simp [trimLeft, h c rfl]

theorem trimRight_cons (c : Char) (cs : List Char) :
    trimRight (c :: cs) =
      if trimRight cs = [] then (if isSpaceJS c then [] else [c])
      else c :: trimRight cs := rfl

theorem head?_trimLeft : ∀ {l : List Char} {c : Char},
    (trimLeft l).head? = some c → isSpaceJS c = false := by
  intro l
  induction l with
  | nil => intro c h; simp [trimLeft] at h
  | cons d ds ih =>
    intro c h
    by_cases hd : isSpaceJS d = true
    · exact ih (by simpa [trimLeft, hd] using h)
    · simp [trimLeft, hd] at h
      subst h
      simpa using hd

theorem head?_trimRight : ∀ {l : List Char} {c : Char},
    (trimRight l).head? = some c → l.head? = some c := by
  intro l
  induction l with
  | nil => intro c h; simp [trimRight] at h
  | cons d ds _ =>
    intro c h
    rw [trimRight_cons] at h
    by_cases htr : trimRight ds = []
    · rw [if_pos htr] at h
      by_cases hd : isSpaceJS d = true
      · rw [if_pos hd] at h
        simp at h
      · rw [if_neg hd] at h
        simp at h
        simpa using h
    · rw [if_neg htr] at h
      simp at h
      simpa using h

theorem trimRight_eq_self_of_nonspace : ∀ {l : List Char},
    (∀ c ∈ l, isSpaceJS c = false) → trimRight l = l := by
  intro l
  induction l with
  | nil => intro _; rfl
  | cons c cs ih =>
    intro h
    have hcs := ih fun d hd => h d (by simp [hd])
    rw [trimRight_cons, hcs]
    cases cs with
    | nil => simp [h c (by simp)]
    | cons e es => simp

theorem trimRight_idem : ∀ (l : List Char), trimRight (trimRight l) = trimRight l := by
  intro l
  induction l with
  | nil => rfl
  | cons c cs ih =>
    rw [trimRight_cons]
    by_cases htr : trimRight cs = []
    · rw [if_pos htr]
      by_cases hc : isSpaceJS c = true
      · rw [if_pos hc]
        rfl
      · rw [if_neg hc]
        rw [trimRight_cons]
        simp [hc, trimRight]
    · rw [if_neg htr]
      rw [trimRight_cons, ih, if_neg htr]

theorem trimJS_idem (l : List Char) : trimJS (trimJS l) = trimJS l := by
  unfold trimJS
  rw [trimLeft_eq_self fun c hc => head?_trimLeft (head?_trimRight hc), trimRight_idem]

/-! ### Commutation of trim with the escape stage -/

theorem blockMap_eq_nil_iff {f : Char → List Char} (hf : ∀ c, f c ≠ []) {l : List Char} :
    blockMap f l = [] ↔ l = [] := by
  cases l with
  | nil => simp [blockMap]
  | cons c cs =>
    simp only [blockMap, List.append_eq_nil]
    constructor
    · rintro ⟨h, _⟩
      exact absurd h (hf c)
    · intro h
      cases h

theorem trimLeft_blockMap {f : Char → List Char}
    (hsp : ∀ c, isSpaceJS c = true → f c = [c])
    (hns : ∀ c, isSpaceJS c = false → f c ≠ [] ∧ ∀ d ∈ f c, isSpaceJS d = false) :
    ∀ (l : List Char), trimLeft (blockMap f l) = blockMap f (trimLeft l) := by
  intro l
  induction l with
  | nil => rfl
  | cons c cs ih =>
    by_cases hc : isSpaceJS c = true
    · show trimLeft (f c ++ blockMap f cs) = blockMap f (trimLeft (c :: cs))
      rw [hsp c hc]
      show trimLeft (c :: blockMap f cs) = _
      simp only [trimLeft, hc, if_true]
      rw [ih]
    · have hcf : isSpaceJS c = false := by simpa using hc
      obtain ⟨hne, hall⟩ := hns c hcf
      show trimLeft (f c ++ blockMap f cs) = blockMap f (trimLeft (c :: cs))
      cases hfc : f c with
      | nil => exact absurd hfc hne
      | cons d ds =>
        have hd : isSpaceJS d = false := hall d (by rw [hfc]; simp)
        show trimLeft (d :: (ds ++ blockMap f cs)) = blockMap f (trimLeft (c :: cs))
        simp only [trimLeft, hd, hcf, Bool.false_eq_true, if_false]
        show _ = blockMap f (c :: cs)
        show _ = f c ++ blockMap f cs
        rw [hfc]
        rfl

theorem trimRight_append : ∀ (a b : List Char),
    trimRight (a ++ b) = if trimRight b = [] then trimRight a else a ++ trimRight b := by
  intro a b
  induction a with
  | nil =>
    by_cases hb : trimRight b = [] <;> simp [hb, trimRight]
  | cons c a' ih =>
    show trimRight (c :: (a' ++ b)) = _
    rw [trimRight_cons, ih]
    by_cases hb : trimRight b = []
    · rw [if_pos hb, if_pos hb, ← trimRight_cons]
    · rw [if_neg hb, if_neg hb]
      have h3 : a' ++ trimRight b ≠ [] := fun ha => hb (List.append_eq_nil.mp ha).2
      rw [if_neg h3]
      rfl

theorem trimRight_blockMap {f : Char → List Char}
    (hsp : ∀ c, isSpaceJS c = true → f c = [c])
    (hns : ∀ c, isSpaceJS c = false → f c ≠ [] ∧ ∀ d ∈ f c, isSpaceJS d = false) :
    ∀ (l : List Char), trimRight (blockMap f l) = blockMap f (trimRight l) := by
  have hfne : ∀ c, f c ≠ [] := by
    intro c
    by_cases hc : isSpaceJS c = true
    · rw [hsp c hc]; simp
    · exact (hns c (by simpa using hc)).1
  intro l
  induction l with
  | nil => rfl
  | cons c cs ih =>
    show trimRight (f c ++ blockMap f cs) = blockMap f (trimRight (c :: cs))
    rw [trimRight_append, ih, trimRight_cons]
    by_cases htr : trimRight cs = []
    · rw [htr]
      have hnil : blockMap f ([] : List Char) = [] := rfl
      rw [hnil, if_pos rfl, if_pos rfl]
      by_cases hc : isSpaceJS c = true
      · rw [if_pos hc, hsp c hc]
        show trimRight [c] = blockMap f []
        rw [trimRight_cons]
        simp [hc, trimRight, blockMap]
      · have hcf : isSpaceJS c = false := by simpa using hc
        rw [if_neg hc]
        rw [trimRight_eq_self_of_nonspace (hns c hcf).2]
        show f c = blockMap f [c]
        simp [blockMap]
    · have hbm : blockMap f (trimRight cs) ≠ [] := by
        rw [Ne, blockMap_eq_nil_iff hfne]
        exact htr
      rw [if_neg hbm, if_neg htr]
      rfl

theorem escBlock_hsp {t : Char} {rep : List Char} (ht : isSpaceJS t = false) :
    ∀ c, isSpaceJS c = true → (if c = t then rep else [c]) = [c] := by
  intro c hc
  rw [if_neg]
  intro e
  subst e
  rw [ht] at hc
  cases hc

theorem escBlock_hns {t : Char} {rep : List Char}
    (hrep : rep ≠ [] ∧ ∀ d ∈ rep, isSpaceJS d = false) :
    ∀ c, isSpaceJS c = false →
      (if c = t then rep else [c]) ≠ [] ∧
      ∀ d ∈ (if c = t then rep else [c]), isSpaceJS d = false := by
  intro c hc
  by_cases e : c = t
  · rw [if_pos e]
    exact hrep
  · rw [if_neg e]
    refine ⟨by simp, ?_⟩
    intro d hd
    simp at hd
    subst hd
    exact hc

theorem trimJS_blockMap {f : Char → List Char}
    (hsp : ∀ c, isSpaceJS c = true → f c = [c])
    (hns : ∀ c, isSpaceJS c = false → f c ≠ [] ∧ ∀ d ∈ f c, isSpaceJS d = false)
    (l : List Char) : trimJS (blockMap f l) = blockMap f (trimJS l) := by
  unfold trimJS
  rw [trimLeft_blockMap hsp hns, trimRight_blockMap hsp hns]

theorem trimJS_escapeHtml (l : List Char) : trimJS (escapeHtml l) = escapeHtml (trimJS l) := by
  unfold escapeHtml escLt escGt escQuot escApos
  rw [trimJS_blockMap (escBlock_hsp (by decide)) (escBlock_hns ⟨by decide, by decide⟩),
      trimJS_blockMap (escBlock_hsp (by decide)) (escBlock_hns ⟨by decide, by decide⟩),
      trimJS_blockMap (escBlock_hsp (by decide)) (escBlock_hns ⟨by decide, by decide⟩),
      trimJS_blockMap (escBlock_hsp (by decide)) (escBlock_hns ⟨by decide, by decide⟩)]

/-! ### The script-tag regex cannot fire on `<`-free text -/

theorem data_script_cons : "<script".data = '<' :: "script".data := rfl

theorem scriptMatch_none_of_no_lt {l : List Char} (h : '<' ∉ l) :
    ∀ n, scriptMatch (l.drop n) = none := by
  intro n
  cases hdrop : l.drop n with
  | nil => rfl
  | cons c cs =>
    have hc : c ≠ '<' := by
      intro e
      subst e
      exact h (List.drop_subset n l (by rw [hdrop]; simp))
    have hci : ciStarts "<script".data (c :: cs) = false := by
      rw [data_script_cons]
      simp [ciStarts, ciEq_lt_eq_false hc]
    simp [scriptMatch, hci]

/-! ### Claim C5 — sanitization idempotence -/

/-- C5, counterexample.  The claim "sanitize(sanitize(x)) == sanitize(x) for
every input string x, and re-validating the sanitized form of any valid
value reports it valid" fails on the code: on
`"jjavascript:avascript:"` one pass yields `"javascript:"` (removing the
inner occurrence splices the surrounding text into a fresh `javascript:`)
and a second pass removes it, so the two sides differ; and
`"<script>a</script>"` is itself valid, yet its sanitized form is the empty
string, which `validateText` rejects. -/
theorem sanitizeText_not_idempotent :
    sanitizeText (sanitizeText "jjavascript:avascript:".data) ≠
      sanitizeText "jjavascript:avascript:".data ∧
    (validateText "<script>a</script>".data).isValid = true ∧
    (validateText (sanitizeText "<script>a</script>".data)).isValid = false := by
  refine ⟨by decide, by decide, by decide⟩

/-- C5, amended.  Sanitization is idempotent on every input whose
once-sanitized form can re-fire neither the `javascript:` regex nor the
inline-event-handler regex: the script-tag regex provably cannot re-fire
(the escape stage leaves no `<`), trimming is provably stable, and the
escape stage provably leaves nothing to escape, so under the two stated
match-freeness conditions `sanitize(sanitize(x)) = sanitize(x)`. -/
theorem sanitizeText_idem_of_matchFree (x : List Char)
    (hjs : matchFreeB jsMatch (sanitizeText x) = true)
    (hon : matchFreeB onMatch (sanitizeText x) = true) :
    sanitizeText (sanitizeText x) = sanitizeText x := by
  have hsp : ∀ d ∈ sanitizeText x, d ≠ '<' ∧ d ≠ '>' ∧ d ≠ '"' ∧ d ≠ aposChar :=
    escapeHtml_no_specials (trimJS (removeEventHandlers (removeJsProtocol (removeScriptTags x))))
  have hlt : '<' ∉ sanitizeText x := fun hm => (hsp _ hm).1 rfl
  have h1 : removeScriptTags (sanitizeText x) = sanitizeText x :=
    replaceAll_eq_self _ _ (scriptMatch_none_of_no_lt hlt)
  have h2 : removeJsProtocol (sanitizeText x) = sanitizeText x :=
    replaceAll_eq_self _ _ (matchFree_of_matchFreeB _ rfl _ hjs)
  have h3 : removeEventHandlers (sanitizeText x) = sanitizeText x :=
    replaceAll_eq_self _ _ (matchFree_of_matchFreeB _ rfl _ hon)
  have h4 : trimJS (sanitizeText x) = sanitizeText x := by
    show trimJS (escapeHtml (trimJS (removeEventHandlers (removeJsProtocol (removeScriptTags x))))) = _
    rw [trimJS_escapeHtml, trimJS_idem]
    rfl
  have h5 : escapeHtml (sanitizeText x) = sanitizeText x := escapeHtml_eq_self hsp
  show escapeHtml (trimJS (removeEventHandlers (removeJsProtocol (removeScriptTags (sanitizeText x))))) =
    sanitizeText x
  rw [h1, h2, h3, h4, h5]

/-- Witness for the amended C5 theorem at a concrete input. -/
theorem sanitizeText_idem_witness :
    matchFreeB jsMatch (sanitizeText "hello world".data) = true ∧
    matchFreeB onMatch (sanitizeText "hello world".data) = true ∧
    sanitizeText (sanitizeText "hello world".data) = sanitizeText "hello world".data :=
  ⟨by decide, by decide, sanitizeText_idem_of_matchFree _ (by decide) (by decide)⟩

/-! ### Claim C6 — text sanitization postcondition -/

/-- C6.  `validateText(value, max)` reports invalid whenever the length
exceeds `max`; the sanitized output never contains a literal `<`, `>`, `"`
or `'` (so in particular no `<script>` substring survives); and on the
spec's scenario `validateText("<script>alert(1)</script>hi", 100)` the
result is valid with sanitized value exactly `"hi"`. -/
theorem validateText_postcondition :
    (∀ (v : List Char) (maxLength : Nat), maxLength < v.length →
        (validateText v maxLength).isValid = false) ∧
    (∀ (v : List Char), ∀ d ∈ sanitizeText v,
        d ≠ '<' ∧ d ≠ '>' ∧ d ≠ '"' ∧ d ≠ aposChar) ∧
    validateText "<script>alert(1)</script>hi".data 100 =
      { isValid := true, errors := [], sanitizedValue := some (.str "hi".data) } := by
  refine ⟨?_, ?_, by decide⟩
  · intro v maxLength h
    unfold validateText
    rw [if_neg (by intro e; subst e; simp at h)]
    simp [h]
  · intro v
    exact escapeHtml_no_specials _

/-- Witness for C6 at concrete inputs. -/
theorem validateText_postcondition_witness :
    (1 < "ab".data.length ∧ (validateText "ab".data 1).isValid = false) ∧
    ('h' ∈ sanitizeText "hi".data ∧ 'h' ≠ '<') :=
  ⟨⟨by decide, validateText_postcondition.1 "ab".data 1 (by decide)⟩,
   ⟨by decide, (validateText_postcondition.2.1 "hi".data 'h' (by decide)).1⟩⟩

/-! ### Autosave coordinator — `EnhancedPortfolioDataService.autoSave`

The service keeps two static maps keyed by `elementType + "_" + elementId`:
`autoSaveTimeouts` (the last `setTimeout` handle) and `pendingChanges` (the
buffered value).  `autoSave` clears the stored timeout, overwrites the
buffered value and schedules a fresh timer; the timer callback reads the
buffered value, `await`s `saveElement`, and only then deletes the two map
entries.  Operations on distinct keys touch disjoint entries, so the state
machine of one key is modelled in isolation; time is `Nat` milliseconds and
every `saveElement` call completes `lat` after it starts. -/

/-- State of one key.  `pending`/`timeoutHandle` are the key's entries of the
two maps; `timers` are scheduled, not-yet-fired, not-cancelled `setTimeout`
callbacks (handle, expiry) — deleting the map entry does not cancel a timer,
only `clearTimeout` on the stored handle does; `inflight` are awaited
`saveElement` calls (value, completion instant); `flushed` logs every
`saveElement` invocation in call order. -/
structure AutoSaveState where
  pending : Option String
  timeoutHandle : Option Nat
  timers : List (Nat × Nat)
  inflight : List (String × Nat)
  flushed : List String
  nextId : Nat
deriving DecidableEq

/-- The idle state of a key never edited. -/
def initAutoSave : AutoSaveState :=
  { pending := none, timeoutHandle := none, timers := [], inflight := [],
    flushed := [], nextId := 0 }

/-- Earliest-deadline element of an event list (the first one wins ties,
matching the scheduling order of equal-deadline queued callbacks). -/
def earliestBy {α : Type} (time : α → Nat) : List α → Option α
  | [] => none
  | t :: ts =>
    match earliestBy time ts with
    | none => some t
    | some u => if time t ≤ time u then some t else some u

/-- An internal event: a timer firing, or an awaited save completing. -/
inductive AsEvent where
  | fire (id expiry : Nat)
  | complete (v : String) (t : Nat)
deriving DecidableEq

/-- `clearTimeout`: remove the timer with the given handle. -/
def removeTimer (id : Nat) : List (Nat × Nat) → List (Nat × Nat)
  | [] => []
  | t :: ts => if t.1 = id then ts else t :: removeTimer id ts

/-- Remove a completed save from the in-flight list. -/
def removeInflight (x : String × Nat) : List (String × Nat) → List (String × Nat)
  | [] => []
  | y :: ys => if y = x then ys else y :: removeInflight x ys

/-- The next internal event: the earliest of timer expiries and save
completions, a completion winning a tie. -/
def nextInternal (s : AutoSaveState) : Option (AsEvent × Nat) :=
  match earliestBy Prod.snd s.inflight, earliestBy Prod.snd s.timers with
  | none, none => none
  | some (v, tc), none => some (.complete v tc, tc)
  | none, some (id, te) => some (.fire id te, te)
  | some (v, tc), some (id, te) =>
    if tc ≤ te then some (.complete v tc, tc) else some (.fire id te, te)

/-- Apply one internal event.  `fire`: the callback reads the key's
`pendingChanges` entry and, when it is defined, calls `saveElement` (logged
in `flushed`) whose completion is due `lat` later; the map deletions happen
only after the `await`, i.e. at completion.  `complete`: the callback
resumes and deletes the `pendingChanges` and `autoSaveTimeouts` entries —
deleting the handle entry does not cancel a newly scheduled timer. -/
def applyInternal (lat : Nat) (s : AutoSaveState) : AsEvent → AutoSaveState
  | .fire id expiry =>
    let s1 := { s with timers := removeTimer id s.timers }
    match s1.pending with
    | some v =>
      { s1 with flushed := s1.flushed ++ [v],
                inflight := s1.inflight ++ [(v, expiry + lat)] }
    | none => s1
  | .complete v t =>
    { s with pending := none, timeoutHandle := none,
             inflight := removeInflight (v, t) s.inflight }

/-- Run internal events in deadline order, optionally only those due up to a
deadline, for at most `fuel` steps. -/
def drainSteps (lat : Nat) (deadline : Option Nat) : Nat → AutoSaveState → AutoSaveState
  | 0, s => s
  | fuel + 1, s =>
    match nextInternal s with
    | none => s
    | some (ev, t) =>
      match deadline with
      | some dl =>
        if t ≤ dl then drainSteps lat deadline fuel (applyInternal lat s ev) else s
      | none => drainSteps lat deadline fuel (applyInternal lat s ev)

/-- Fuel bound: a firing removes a timer and may add one in-flight save, a
completion removes one in-flight save, and no internal event creates a
timer, so `2·timers + inflight` steps always reach quiescence. -/
def asFuel (s : AutoSaveState) : Nat := 2 * s.timers.length + s.inflight.length

/-- Run every internal event due at or before instant `dl`. -/
def drainUpTo (lat dl : Nat) (s : AutoSaveState) : AutoSaveState :=
  drainSteps lat (some dl) (asFuel s) s

/-- Run every remaining internal event. -/
def drainAll (lat : Nat) (s : AutoSaveState) : AutoSaveState :=
  drainSteps lat none (asFuel s) s

/-- `autoSave(elementType, elementId, value, delay)` issued at instant `t`:
clear the key's stored timeout handle if any, overwrite the buffered value,
schedule a fresh timer `delay` later and store its handle. -/
def applyEdit (delay t : Nat) (v : String) (s : AutoSaveState) : AutoSaveState :=
  let s1 :=
    match s.timeoutHandle with
    | some id => { s with timers := removeTimer id s.timers }
    | none => s
  { s1 with pending := some v,
            timers := s1.timers ++ [(s1.nextId, t + delay)],
            timeoutHandle := some s1.nextId,
            nextId := s1.nextId + 1 }

/-- Process one timestamped edit: run the internal events due before its
instant, then apply the edit. -/
def stepEdit (delay lat : Nat) (s : AutoSaveState) (e : Nat × String) : AutoSaveState :=
  applyEdit delay e.1 e.2 (drainUpTo lat e.1 s)

/-- Run a timestamped edit sequence and then let every timer and in-flight
save finish. -/
def runEdits (delay lat : Nat) (es : List (Nat × String)) (s : AutoSaveState) : AutoSaveState :=
  drainAll lat (es.foldl (stepEdit delay lat) s)

/-- Edits arrive in order and each (after the first) less than `d` after the
previous one. -/
def chainedWithin (d : Nat) : List (Nat × String) → Bool
  | [] => true
  | [_] => true
  | (t1, _) :: (t2, v2) :: rest =>
    decide (t1 ≤ t2) && decide (t2 < t1 + d) && chainedWithin d ((t2, v2) :: rest)

/-- The state right after an edit at instant `t` in a quiet situation: value
buffered, one live timer with stored handle, nothing in flight. -/
def armed (t d k : Nat) (v : String) (F : List String) : AutoSaveState :=
  { pending := some v, timeoutHandle := some k, timers := [(k, t + d)],
    inflight := [], flushed := F, nextId := k + 1 }

theorem drainAll_armed (lat d t k : Nat) (v : String) (F : List String) :
    drainAll lat (armed t d k v F) =
      { pending := none, timeoutHandle := none, timers := [], inflight := [],
        flushed := F ++ [v], nextId := k + 1 } := by
  simp [drainAll, asFuel, armed, drainSteps, nextInternal, earliestBy,
        applyInternal, removeTimer, removeInflight]

theorem stepEdit_armed (d lat t1 t2 k : Nat) (v1 v2 : String) (F : List String)
    (h2 : t2 < t1 + d) :
    stepEdit d lat (armed t1 d k v1 F) (t2, v2) = armed t2 d (k + 1) v2 F := by
  have hle : ¬ (t1 + d ≤ t2) := by omega
  simp [stepEdit, drainUpTo, asFuel, armed, drainSteps, nextInternal, earliestBy,
        applyInternal, applyEdit, removeTimer, hle]

theorem runEdits_armed : ∀ (es : List (Nat × String)) (d lat t k : Nat) (v : String)
    (F : List String), chainedWithin d ((t, v) :: es) = true →
    (drainAll lat (es.foldl (stepEdit d lat) (armed t d k v F))).flushed =
      F ++ [(es.getLastD (t, v)).2] := by
  intro es
  induction es with
  | nil =>
    intro d lat t k v F _
    rw [List.foldl_nil, drainAll_armed]
    rfl
  | cons e es ih =>
    intro d lat t k v F hch
    obtain ⟨t2, v2⟩ := e
    have hparts : (t2 < t + d) ∧ chainedWithin d ((t2, v2) :: es) = true := by
      simp only [chainedWithin, Bool.and_eq_true, decide_eq_true_eq] at hch
      exact ⟨hch.1.2, hch.2⟩
    rw [List.foldl_cons, stepEdit_armed d lat t t2 k v v2 F hparts.1,
        ih d lat t2 (k + 1) v2 F hparts.2, List.getLastD_cons]

/-! ### Claim C1 — debounce coalescing -/

/-- C1.  For a key edited `n ≥ 1` times, each later edit arriving less than
the debounce delay after the previous one, the whole run performs exactly
one `saveElement` call, whose value is the last edit's value (each edit
overwrote the buffer and restarted the timer; only the final timer fired). -/
theorem autoSave_debounce_coalesces (d lat t : Nat) (v : String)
    (es : List (Nat × String)) (hch : chainedWithin d ((t, v) :: es) = true) :
    (runEdits d lat ((t, v) :: es) initAutoSave).flushed = [(es.getLastD (t, v)).2] := by
  unfold runEdits
  rw [List.foldl_cons]
  have h0 : stepEdit d lat initAutoSave (t, v) = armed t d 0 v [] := by
    simp [stepEdit, drainUpTo, asFuel, drainSteps, initAutoSave, applyEdit,
          nextInternal, earliestBy, armed]
  rw [h0]
  simpa using runEdits_armed es d lat t 0 v [] hch

/-- Witness for C1: the spec's own scenario (two edits 1000 ms apart with a
2000 ms delay) flushes exactly once, with the second value. -/
theorem autoSave_debounce_witness :
    chainedWithin 2000 [(0, "hello"), (1000, "hello world")] = true ∧
    (runEdits 2000 500 [(0, "hello"), (1000, "hello world")] initAutoSave).flushed =
      ["hello world"] :=
  ⟨by decide,
   autoSave_debounce_coalesces 2000 500 0 "hello" [(1000, "hello world")] (by decide)⟩

/-! ### Claim C2 — a mid-flush edit is lost -/

/-- C2, evaluated at the failing input.  With delay 2000 and save latency
500: the edit at t=0 flushes at t=2000; a second edit "v2" arrives at
t=2100 while that save is in flight.  When the save completes at t=2500 the
callback's post-await cleanup deletes the `pendingChanges` entry — which now
holds "v2" — and drops the new timer's map entry without cancelling the
timer; the new timer fires at t=4100, finds the buffer empty and saves
nothing.  The run performs exactly one `saveElement` call (with "v1"), the
buffer ends empty and every timer has fired: "v2" is silently dropped,
contradicting the claim that a mid-flush edit is flushed by its own
debounce cycle after the prior flush completes. -/
theorem autoSave_midflush_edit_dropped :
    (runEdits 2000 500 [(0, "v1"), (2100, "v2")] initAutoSave).flushed = ["v1"] ∧
    (runEdits 2000 500 [(0, "v1"), (2100, "v2")] initAutoSave).pending = none ∧
    (runEdits 2000 500 [(0, "v1"), (2100, "v2")] initAutoSave).timers = [] :=
  ⟨by decide, by decide, by decide⟩

/-! ### Share links — `RealTimeFormService.validateShareLink` -/

/-- The share-record fields read by `validateShareLink` (the `share`
element's JSON payload); `expiresAt` is the parsed `Date` as an instant. -/
structure ShareRecord where
  isActive : Bool
  expiresAt : Int
deriving DecidableEq

/-- `RealTimeFormService.validateShareLink(shareId)` over an abstract share
store (the `getElement('share', shareId)` read) at the current instant
`now` (`new Date()`): a missing record, an inactive record, and
`new Date(shareData.expiresAt) < new Date()` each throw; otherwise the
record is returned. -/
def validateShareLink (store : String → Option ShareRecord) (now : Int)
    (shareId : String) : Except String ShareRecord :=
  match store shareId with
  | none => .error "Share link not found"
  | some r =>
    if !r.isActive then .error "Share link is inactive"
    else if r.expiresAt < now then .error "Share link has expired"
    else .ok r

/-- A one-link store whose link expires exactly at instant 100. -/
def boundaryStore : String → Option ShareRecord :=
  fun id => if id = "share1" then some { isActive := true, expiresAt := 100 } else none

/-- C3, counterexample: at the exact boundary `now = expiresAt` the code
accepts the link (it throws only when `expiresAt < now`), while the claim
says equality is treated as expired. -/
theorem validateShareLink_boundary_accepts :
    validateShareLink boundaryStore 100 "share1" =
      .ok { isActive := true, expiresAt := 100 } ∧ ¬ ((100 : Int) < 100) :=
  ⟨rfl, by decide⟩

theorem validateShareLink_of_none {store : String → Option ShareRecord} {now : Int}
    {shareId : String} (hs : store shareId = none) :
    validateShareLink store now shareId = .error "Share link not found" := by
  unfold validateShareLink
  rw [hs]

theorem validateShareLink_of_found {store : String → Option ShareRecord} {now : Int}
    {shareId : String} {r' : ShareRecord} (hs : store shareId = some r') :
    validateShareLink store now shareId =
      (if !r'.isActive then .error "Share link is inactive"
       else if r'.expiresAt < now then .error "Share link has expired"
       else .ok r') := by
  unfold validateShareLink
  rw [hs]

/-- C3, amended: `validateShareLink` succeeds, returning the stored record,
iff the record exists, its `isActive` flag is true and `now ≤ expiresAt`; in
every other case it fails with an error.  At the boundary `now = expiresAt`
the link is still accepted — the code treats a link as expired only strictly
after its expiry instant. -/
theorem validateShareLink_ok_iff (store : String → Option ShareRecord) (now : Int)
    (shareId : String) (r : ShareRecord) :
    validateShareLink store now shareId = .ok r ↔
      (store shareId = some r ∧ r.isActive = true ∧ now ≤ r.expiresAt) := by
  cases hs : store shareId with
  | none =>
    rw [validateShareLink_of_none hs]
    constructor
    · intro h
      exact Except.noConfusion h
    · rintro ⟨heq, _⟩
      exact Option.noConfusion heq
  | some r' =>
    rw [validateShareLink_of_found hs]
    by_cases ha : r'.isActive = true
    · by_cases he : r'.expiresAt < now
      · rw [if_neg (by simp [ha]), if_pos he]
        constructor
        · intro h
          exact Except.noConfusion h
        · rintro ⟨heq, _, hle⟩
          injection heq with heq
          subst heq
          omega
      · rw [if_neg (by simp [ha]), if_neg he]
        constructor
        · intro h
          injection h with h
          subst h
          exact ⟨rfl, ha, by omega⟩
        · rintro ⟨heq, _, _⟩
          injection heq with heq
          rw [heq]
    · have hfalse : r'.isActive = false := by
        simpa using ha
      rw [if_pos (by simp [hfalse])]
      constructor
      · intro h
        exact Except.noConfusion h
      · rintro ⟨heq, hact, _⟩
        injection heq with heq
        subst heq
        simp [hfalse] at hact

/-! ### Share links — SQL `validate_share_link` over `form_shares` -/

/-- A row of `public.form_shares`. -/
structure FormShare where
  shareId : String
  formId : String
  permissions : List String
  passwordHash : Option String
  isActive : Bool
  expiresAt : Option Int
  accessCount : Nat
  lastAccessedAt : Option Int
  createdBy : String
deriving DecidableEq

/-- Result row of `validate_share_link`. -/
structure ShareValidation where
  isValid : Bool
  formId : Option String
  permissions : Option (List String)
  requiresPassword : Bool
deriving DecidableEq

/-- Row filter of the function's SELECT:
`share_id = p AND is_active = true AND (expires_at IS NULL OR expires_at > NOW())`. -/
def shareRowValid (now : Int) (p : String) (r : FormShare) : Bool :=
  r.shareId = p && r.isActive &&
    (match r.expiresAt with
     | none => true
     | some e => decide (now < e))

/-- Per-row effect of the function's UPDATE: every row whose `share_id`
matches gets `access_count = access_count + 1` and
`last_accessed_at = NOW()`; other rows are untouched. -/
def bumpAccess (now : Int) (p : String) (q : FormShare) : FormShare :=
  if q.shareId = p then
    { q with accessCount := q.accessCount + 1, lastAccessedAt := some now }
  else q

/-- SQL `validate_share_link(p_share_id)` over the `form_shares` table at
instant `now`: select a matching valid row; when none, return the invalid
row and leave the table unchanged; when found, run the UPDATE
(`bumpAccess`) and return the valid row built from the selected record. -/
def validate_share_link (now : Int) (tbl : List FormShare) (p : String) :
    ShareValidation × List FormShare :=
  match tbl.find? (shareRowValid now p) with
  | none =>
    ({ isValid := false, formId := none, permissions := none, requiresPassword := false },
     tbl)
  | some r =>
    ({ isValid := true, formId := some r.formId, permissions := some r.permissions,
       requiresPassword := r.passwordHash.isSome },
     tbl.map (bumpAccess now p))

theorem validate_share_link_of_none {now : Int} {tbl : List FormShare} {p : String}
    (hf : tbl.find? (shareRowValid now p) = none) :
    validate_share_link now tbl p =
      ({ isValid := false, formId := none, permissions := none, requiresPassword := false },
       tbl) := by
  unfold validate_share_link
  rw [hf]

theorem validate_share_link_of_found {now : Int} {tbl : List FormShare} {p : String}
    {r : FormShare} (hf : tbl.find? (shareRowValid now p) = some r) :
    validate_share_link now tbl p =
      ({ isValid := true, formId := some r.formId, permissions := some r.permissions,
         requiresPassword := r.passwordHash.isSome },
       tbl.map (bumpAccess now p)) := by
  unfold validate_share_link
  rw [hf]

/-- A concrete valid share row for the C4 counterexample. -/
def c4Row : FormShare :=
  { shareId := "s1", formId := "f1", permissions := ["read"], passwordHash := none,
    isActive := true, expiresAt := some 200, accessCount := 0,
    lastAccessedAt := some 5, createdBy := "u1" }

/-- C4, counterexample: a validation call that finds the link valid does
increment `access_count` by one, but it ALSO rewrites `last_accessed_at`
(5 ↦ 10), so it does not leave every other attribute of the share record
unchanged, as the claim asserts.  (The client-side
`RealTimeFormService.validateShareLink` records nothing at all; the counter
lives only in this SQL RPC.) -/
theorem validate_share_link_changes_lastAccessed :
    (validate_share_link 10 [c4Row] "s1").1.isValid = true ∧
    (validate_share_link 10 [c4Row] "s1").2 =
      [{ c4Row with accessCount := 1, lastAccessedAt := some 10 }] ∧
    ({ c4Row with accessCount := 1, lastAccessedAt := some 10 }).lastAccessedAt ≠
      c4Row.lastAccessedAt :=
  ⟨by decide, by decide, by decide⟩

/-- Index-wise evaluation of the UPDATE map. -/
theorem get_map_bump (now : Int) (p : String) (l : List FormShare) (i : Nat)
    (hi : i < l.length) (hi' : i < (l.map (bumpAccess now p)).length) :
    (l.map (bumpAccess now p)).get ⟨i, hi'⟩ = bumpAccess now p (l.get ⟨i, hi⟩) := by
  simp [List.get_map]

/-- C4, amended: an unsuccessful validation leaves the table unchanged; a
validation that finds a valid link increments the `access_count` of EVERY
row whose `share_id` matches by exactly one and sets its `last_accessed_at`
to the current instant; every row whose `share_id` does not match is
completely unchanged; and no row ever changes its `share_id`, `form_id`,
`permissions`, `password_hash`, `is_active`, `expires_at` or `created_by`,
the table keeping its length. -/
theorem validate_share_link_access_tracking (now : Int) (tbl : List FormShare)
    (p : String) :
    (validate_share_link now tbl p).2.length = tbl.length ∧
    ((validate_share_link now tbl p).1.isValid = false →
      (validate_share_link now tbl p).2 = tbl) ∧
    ∀ i (hi : i < tbl.length) (hi' : i < (validate_share_link now tbl p).2.length),
      ((validate_share_link now tbl p).2.get ⟨i, hi'⟩).shareId = (tbl.get ⟨i, hi⟩).shareId ∧
      ((validate_share_link now tbl p).2.get ⟨i, hi'⟩).formId = (tbl.get ⟨i, hi⟩).formId ∧
      ((validate_share_link now tbl p).2.get ⟨i, hi'⟩).permissions = (tbl.get ⟨i, hi⟩).permissions ∧
      ((validate_share_link now tbl p).2.get ⟨i, hi'⟩).passwordHash = (tbl.get ⟨i, hi⟩).passwordHash ∧
      ((validate_share_link now tbl p).2.get ⟨i, hi'⟩).isActive = (tbl.get ⟨i, hi⟩).isActive ∧
      ((validate_share_link now tbl p).2.get ⟨i, hi'⟩).expiresAt = (tbl.get ⟨i, hi⟩).expiresAt ∧
      ((validate_share_link now tbl p).2.get ⟨i, hi'⟩).createdBy = (tbl.get ⟨i, hi⟩).createdBy ∧
      ((validate_share_link now tbl p).1.isValid = true → (tbl.get ⟨i, hi⟩).shareId = p →
        ((validate_share_link now tbl p).2.get ⟨i, hi'⟩).accessCount =
          (tbl.get ⟨i, hi⟩).accessCount + 1 ∧
        ((validate_share_link now tbl p).2.get ⟨i, hi'⟩).lastAccessedAt = some now) ∧
      ((tbl.get ⟨i, hi⟩).shareId ≠ p →
        (validate_share_link now tbl p).2.get ⟨i, hi'⟩ = tbl.get ⟨i, hi⟩) := by
  cases hf : tbl.find? (shareRowValid now p) with
  | none =>
    rw [validate_share_link_of_none hf]
    refine ⟨rfl, fun _ => rfl, ?_⟩
    intro i hi hi'
    exact ⟨rfl, rfl, rfl, rfl, rfl, rfl, rfl,
      fun hvalid _ => by simp at hvalid, fun _ => rfl⟩
  | some r =>
    rw [validate_share_link_of_found hf]
    refine ⟨by simp, fun hvalid => by simp at hvalid, ?_⟩
    intro i hi hi'
    rw [get_map_bump now p tbl i hi hi']
    unfold bumpAccess
    by_cases hq : (tbl.get ⟨i, hi⟩).shareId = p
    · rw [if_pos hq]
      exact ⟨rfl, rfl, rfl, rfl, rfl, rfl, rfl, fun _ _ => ⟨rfl, rfl⟩,
        fun hne => absurd hq hne⟩
    · rw [if_neg hq]
      exact ⟨rfl, rfl, rfl, rfl, rfl, rfl, rfl, fun _ hq2 => absurd hq2 hq,
        fun _ => rfl⟩

/-- Witness for the amended C4 theorem on a concrete table: the valid
matching row really is bumped by exactly one access, stamped with the
current instant, and keeps its identity fields. -/
theorem validate_share_link_access_witness :
    (0 : Nat) < [c4Row].length ∧
    (validate_share_link 10 [c4Row] "s1").1.isValid = true ∧
    ([c4Row].get ⟨0, by decide⟩).shareId = "s1" ∧
    ((validate_share_link 10 [c4Row] "s1").2.get ⟨0, by decide⟩).accessCount =
      ([c4Row].get ⟨0, by decide⟩).accessCount + 1 ∧
    ((validate_share_link 10 [c4Row] "s1").2.get ⟨0, by decide⟩).lastAccessedAt =
      some 10 ∧
    ((validate_share_link 10 [c4Row] "s1").2.get ⟨0, by decide⟩).formId =
      c4Row.formId := by
  have h := (validate_share_link_access_tracking 10 [c4Row] "s1").2.2 0 (by decide)
    (by decide)
  have hb := h.2.2.2.2.2.2.2.1 (by decide) (by decide)
  exact ⟨by decide, by decide, by decide, hb.1, hb.2, h.2.1⟩

/-! ### Backend — `portfolio_data_v2` and its SQL functions (part_006) -/

/-- A row of `public.portfolio_data_v2` (the JSONB payload is carried by its
serialization; `created_at` is not read by any embedded function). -/
structure DataRow where
  id : String
  userId : String
  elementType : String
  elementId : String
  elementValue : Option (List Char)
  jsonData : Option (List Char)
  metadata : String
  version : Nat
  isActive : Bool
  updatedAt : Int
deriving DecidableEq

/-- The backend store: table rows plus a counter generating fresh row ids
(`gen_random_uuid()`). -/
structure Backend where
  rows : List DataRow
  nextId : Nat
deriving DecidableEq

/-- Element types allowed by the table CHECK constraint and re-checked by
the `validate_portfolio_data` trigger. -/
def allowedTypes : List String := ["text", "image", "project", "education", "profile"]

/-- Server-side sanitization performed by the `validate_portfolio_data`
trigger on `element_value`: strip script tags, strip `javascript:`, trim
(the SQL regexes mirror the client ones embedded above). -/
def serverSanitize (l : List Char) : List Char :=
  trimJS (removeJsProtocol (removeScriptTags l))

/-- Trigger length check `length(element_value) > 10000`. -/
def tooLongText : Option (List Char) → Bool
  | none => false
  | some v => decide (10000 < v.length)

/-- Trigger size check `pg_column_size(json_data) > 1048576`, approximated
by the length of the serialization. -/
def tooLargeJson : Option (List Char) → Bool
  | none => false
  | some j => decide (1048576 < j.length)

/-- Key test for the UNIQUE constraint `(user_id, element_type, element_id)`. -/
def rowKeyIs (uid ty eid : String) (r : DataRow) : Bool :=
  r.userId = uid && r.elementType = ty && r.elementId = eid

/-- Lookup on the UNIQUE key `(user_id, element_type, element_id)`. -/
def findRow (uid ty eid : String) (rows : List DataRow) : Option DataRow :=
  rows.find? (rowKeyIs uid ty eid)

/-- The ON CONFLICT DO UPDATE: rewrite the (unique) row with the given key. -/
def replaceRow (uid ty eid : String) (f : DataRow → DataRow) (rows : List DataRow) :
    List DataRow :=
  rows.map fun r => if rowKeyIs uid ty eid r then f r else r

/-- SQL `upsert_portfolio_data`: auth check, the BEFORE triggers
(`validate_portfolio_data`: type whitelist, server sanitization, length and
size checks; `create_portfolio_backup` on the update path: version bump and
`updated_at` refresh), then INSERT … ON CONFLICT DO UPDATE, returning the
row id.  A raised exception is the `error` case and, by statement-level
rollback, leaves the store unchanged (the caller keeps its old `Backend`).
The audit-log and backup side tables are not modelled — no claim reads
them. -/
def upsert_portfolio_data (now : Int) (uid : Option String) (ty eid : String)
    (ev jd : Option (List Char)) (meta : String) (b : Backend) :
    Except String (String × Backend) :=
  match uid with
  | none => .error "User must be authenticated"
  | some uid =>
    if (allowedTypes.contains ty) = false then .error ("Invalid element_type: " ++ ty)
    else
      let ev2 := ev.map serverSanitize
      if tooLongText ev2 then
        .error "Element value too long. Maximum 10000 characters allowed."
      else if tooLargeJson jd then
        .error "JSON data too large. Maximum 1MB allowed."
      else
        match findRow uid ty eid b.rows with
        | some r =>
          let upd : DataRow → DataRow := fun q =>
            { q with elementValue := ev2, jsonData := jd, metadata := meta,
                     version := q.version + 1, updatedAt := now }
          .ok (r.id, { b with rows := replaceRow uid ty eid upd b.rows })
        | none =>
          let rid := "row-" ++ toString b.nextId
          let newRow : DataRow :=
            { id := rid, userId := uid, elementType := ty, elementId := eid,
              elementValue := ev2, jsonData := jd, metadata := meta,
              version := 1, isActive := true, updatedAt := now }
          .ok (rid, { rows := b.rows ++ [newRow], nextId := b.nextId + 1 })

/-- SQL `get_portfolio_data`: auth check, then the caller's active rows
under the optional type/id filters.  With both filters given, the UNIQUE
key leaves at most one match, so the `ORDER BY updated_at` is immaterial
and the row order is kept. -/
def get_portfolio_data (uid : Option String) (ty eid : Option String) (b : Backend) :
    Except String (List DataRow) :=
  match uid with
  | none => .error "User must be authenticated"
  | some uid =>
    .ok (b.rows.filter fun r =>
      r.userId = uid && r.isActive &&
      (match ty with | none => true | some t => r.elementType = t) &&
      (match eid with | none => true | some e => r.elementId = e))

/-! ### `EnhancedPortfolioDataService.getElement` -/

/-- `getElement` applied to the outcome of its `get_portfolio_data` RPC
call (every thrown or returned failure is the `error` case, caught by the
`try/catch`): an error yields `null`; no rows yields `null`; otherwise
`item.json_data || item.element_value` of the first row (`null` again when
the row carries neither payload). -/
def getElementFromRpc (r : Except String (List DataRow)) : Option PValue :=
  match r with
  | .error _ => none
  | .ok [] => none
  | .ok (item :: _) =>
    match item.jsonData with
    | some j => some (.obj j)
    | none => item.elementValue.map .str

/-- `getElement(elementType, elementId)` against the modelled backend. -/
def getElement (uid : Option String) (ty eid : String) (b : Backend) : Option PValue :=
  getElementFromRpc (get_portfolio_data uid (some ty) (some eid) b)

/-! ### `EnhancedPortfolioDataService.saveElement` -/

/-- Client-side environment of a service call: the auth session (user id
when signed in) and the current instant. -/
structure ClientEnv where
  session : Option String
  now : Int
deriving DecidableEq

/-- `DataChangeEvent` (the `timestamp` field is display-only). -/
structure ChangeEvent where
  elementType : String
  elementId : String
  oldValue : Option PValue
  newValue : PValue
  userId : String
deriving DecidableEq

/-- Client-observable system state: the backend store, the change events
emitted so far, and the number of upsert/bulk RPC invocations issued. -/
structure SysState where
  backend : Backend
  events : List ChangeEvent
  rpcUpserts : Nat
deriving DecidableEq

/-- `SaveOptions` with the source's defaults. -/
structure SaveOptions where
  autoSave : Bool := false
  validateData : Bool := true
  createBackup : Bool := true
  showNotifications : Bool := true
deriving DecidableEq

/-- Result shape of `saveElement`. -/
structure SaveResult where
  success : Bool
  data : Option String := none
  errors : Option (List String) := none
deriving DecidableEq

/-- `typeof value === 'string' ? validateText(value) : validateJson(value)`. -/
def validateValue : PValue → ValidationResult
  | .str s => validateText s
  | .obj j => validateJson j

/-- `value = validation.sanitizedValue || value`: JS `||` falls back to the
original value when `sanitizedValue` is absent or falsy — and the empty
string is falsy, so a value sanitized to `""` is replaced by the ORIGINAL
(to be re-sanitized server-side). -/
def sanitizedOrOriginal (orig : PValue) : Option PValue → PValue
  | some (.str []) => orig
  | some sv => sv
  | none => orig

/-- Body of `saveElement` after authentication and validation: read the
current value for change tracking, issue the `upsert_portfolio_data` RPC
(counted in `rpcUpserts`), and on success emit the change event and return
`{success := true, data := <rpc row id>}`; an RPC error is caught and
returned as `{success := false, errors := [message]}` with no event.  The
`p_metadata` payload (auto-save flag, timestamp, user agent) is opaque
here; toasts are display-only and not modelled. -/
def changeEventFor (uid ty eid : String) (oldV : Option PValue) (v2 : PValue) :
    ChangeEvent :=
  { elementType := ty, elementId := eid, oldValue := oldV, newValue := v2,
    userId := uid }

def saveElementGo (env : ClientEnv) (st : SysState) (uid ty eid : String)
    (v2 : PValue) : SaveResult × SysState :=
  match upsert_portfolio_data env.now (some uid) ty eid
      (match v2 with | .str s => some s | .obj _ => none)
      (match v2 with | .obj j => some j | .str _ => none)
      "client_metadata" st.backend with
  | .error msg =>
    ({ success := false, errors := some [msg] },
     { st with rpcUpserts := st.rpcUpserts + 1 })
  | .ok (rid, b2) =>
    ({ success := true, data := some rid },
     { backend := b2,
       events := st.events ++
         [changeEventFor uid ty eid (getElement (some uid) ty eid st.backend) v2],
       rpcUpserts := st.rpcUpserts + 1 })

/-- `EnhancedPortfolioDataService.saveElement(elementType, elementId,
value, options)`: the missing-session throw is caught into a failure
result; with `validateData` the validator runs and a rejection returns its
error list unchanged, before any read or write. -/
def saveElement (env : ClientEnv) (st : SysState) (ty eid : String) (v : PValue)
    (opts : SaveOptions) : SaveResult × SysState :=
  match env.session with
  | none =>
    ({ success := false, errors := some ["User must be authenticated to save data"] }, st)
  | some uid =>
    if opts.validateData then
      let validation := validateValue v
      if validation.isValid then
        saveElementGo env st uid ty eid (sanitizedOrOriginal v validation.sanitizedValue)
      else ({ success := false, errors := some validation.errors }, st)
    else saveElementGo env st uid ty eid v

/-! ### `EnhancedPortfolioDataService.bulkSave` and the bulk RPC -/

/-- One entry of the `updates` array of `bulkSave`. -/
structure BulkItem where
  elementType : String
  elementId : String
  value : PValue
deriving DecidableEq

/-- Result shape of `bulkSave`. -/
structure BulkResult where
  success : Bool
  savedCount : Nat
  errors : List String
deriving DecidableEq

/-- Loop of SQL `bulk_update_portfolio_data`: upsert each update in order,
incrementing the count after each one; an unhandled exception aborts the
whole function. -/
def bulkLoop (now : Int) (uid : String) : List BulkItem → Nat → Backend →
    Except String (Nat × Backend)
  | [], n, b => .ok (n, b)
  | u :: us, n, b =>
    match upsert_portfolio_data now (some uid) u.elementType u.elementId
        (match u.value with | .str s => some s | .obj _ => none)
        (match u.value with | .obj j => some j | .str _ => none) "bulk_metadata" b with
    | .error msg => .error msg
    | .ok (_, b2) => bulkLoop now uid us (n + 1) b2

/-- SQL `bulk_update_portfolio_data`: auth check, then the loop. -/
def bulk_update_portfolio_data (now : Int) (uid : Option String)
    (updates : List BulkItem) (b : Backend) : Except String (Nat × Backend) :=
  match uid with
  | none => .error "User must be authenticated"
  | some uid => bulkLoop now uid updates 0 b

/-- `EnhancedPortfolioDataService.bulkSave(updates)`: auth check, one bulk
RPC; on success `{success := true, savedCount := data, errors := []}`; any
thrown error (missing session or RPC failure) is caught as
`{success := false, savedCount := 0, errors := [message]}`.  An exception
inside the SQL function aborts its whole statement, so the backend keeps
its pre-call rows on the error path. -/
def bulkSave (env : ClientEnv) (st : SysState) (updates : List BulkItem) :
    BulkResult × SysState :=
  match env.session with
  | none =>
    ({ success := false, savedCount := 0, errors := ["User must be authenticated"] }, st)
  | some uid =>
    match bulk_update_portfolio_data env.now (some uid) updates st.backend with
    | .error msg =>
      ({ success := false, savedCount := 0, errors := [msg] },
       { st with rpcUpserts := st.rpcUpserts + 1 })
    | .ok (n, b2) =>
      ({ success := true, savedCount := n, errors := [] },
       { backend := b2, events := st.events, rpcUpserts := st.rpcUpserts + 1 })

/-! ### Lemmas about the backend -/

/-- Stored `element_value` of the element row for a key. -/
def storedValue (uid ty eid : String) (b : Backend) : Option (List Char) :=
  (findRow uid ty eid b.rows).bind fun r => r.elementValue

theorem bulkLoop_count (now : Int) (uid : String) :
    ∀ (us : List BulkItem) (n : Nat) (b : Backend) (m : Nat) (b2 : Backend),
      bulkLoop now uid us n b = .ok (m, b2) → m = n + us.length := by
  intro us
  induction us with
  | nil =>
    intro n b m b2 h
    injection h with h
    injection h with h1 h2
    simp only [List.length_nil]
    omega
  | cons u us ih =>
    intro n b m b2 h
    unfold bulkLoop at h
    cases hup : upsert_portfolio_data now (some uid) u.elementType u.elementId
        (match u.value with | .str s => some s | .obj _ => none)
        (match u.value with | .obj j => some j | .str _ => none) "bulk_metadata" b with
    | error msg =>
      rw [hup] at h
      exact Except.noConfusion h
    | ok p =>
      rw [hup] at h
      obtain ⟨_, b3⟩ := p
      have := ih (n + 1) b3 m b2 h
      simp [this]
      omega

theorem validateText_sanitized_of_valid {s : List Char}
    (h : (validateText s).isValid = true) :
    (validateText s).sanitizedValue = some (.str (sanitizeText s)) := by
  unfold validateText at h ⊢
  by_cases hnil : s = []
  · rw [if_pos hnil] at h
    cases h
  · rw [if_neg hnil] at h ⊢

theorem sanitizedOrOriginal_str {orig : PValue} {t : List Char} (h : t ≠ []) :
    sanitizedOrOriginal orig (some (.str t)) = .str t := by
  cases t with
  | nil => exact absurd rfl h
  | cons c cs => rfl

/-! ### Claim C7 — validation failure aborts the write atomically -/

/-- C7.  With an active session and `validateData = true`, a validator
rejection makes `saveElement` return `{success := false}` carrying exactly
the validator's error list, and leaves the entire system state unchanged:
the upsert RPC is not issued (`rpcUpserts` is unchanged), the stored rows
are untouched and no change event is emitted. -/
theorem saveElement_validation_failure_aborts (env : ClientEnv) (st : SysState)
    (ty eid : String) (v : PValue) (opts : SaveOptions) (uid : String)
    (hs : env.session = some uid) (hv : opts.validateData = true)
    (hval : (validateValue v).isValid = false) :
    saveElement env st ty eid v opts =
      ({ success := false, data := none, errors := some (validateValue v).errors },
       st) := by
  unfold saveElement
  rw [hs]
  simp [hv, hval]

/-- Witness for C7 at a concrete input (the empty string is rejected). -/
theorem saveElement_validation_failure_witness :
    ({ session := some "u1", now := 0 } : ClientEnv).session = some "u1" ∧
    (({} : SaveOptions)).validateData = true ∧
    (validateValue (.str [])).isValid = false ∧
    saveElement { session := some "u1", now := 0 }
        { backend := { rows := [], nextId := 0 }, events := [], rpcUpserts := 0 }
        "text" "e1" (.str []) {} =
      ({ success := false, data := none,
         errors := some (validateValue (.str [])).errors },
       { backend := { rows := [], nextId := 0 }, events := [], rpcUpserts := 0 }) :=
  ⟨rfl, rfl, by decide,
   saveElement_validation_failure_aborts { session := some "u1", now := 0 }
     { backend := { rows := [], nextId := 0 }, events := [], rpcUpserts := 0 }
     "text" "e1" (.str []) {} "u1" rfl rfl (by decide)⟩

/-! ### Claim C8 — what a successful save returns -/

/-- Concrete environment and empty initial state for the C8/C9 runs. -/
def envU1 : ClientEnv := { session := some "u1", now := 0 }

def emptySys : SysState :=
  { backend := { rows := [], nextId := 0 }, events := [], rpcUpserts := 0 }

/-- A two-item batch whose second item the backend rejects (element type
outside the whitelist). -/
def c9Batch : List BulkItem :=
  [{ elementType := "text", elementId := "id1", value := .str "v1".data },
   { elementType := "bogus", elementId := "id2", value := .str "x".data }]

/-- A one-item batch every item of which the backend accepts. -/
def c9GoodBatch : List BulkItem :=
  [{ elementType := "text", elementId := "a", value := .str "x".data }]

/-- C9, counterexample: when the backend rejects the second item of a
two-item batch, `bulkSave` reports exactly the "total failure with
savedCount 0" outcome the claim rules out — success false, savedCount 0,
the rejection message — and, the failed SQL statement rolling back, even
the accepted first item is not applied, rather than `savedCount = 1` with
id1's value persisted. -/
theorem bulkSave_partial_is_total_failure :
    (bulkSave envU1 emptySys c9Batch).1 =
      { success := false, savedCount := 0,
        errors := ["Invalid element_type: bogus"] } ∧
    (bulkSave envU1 emptySys c9Batch).2.backend = emptySys.backend ∧
    storedValue "u1" "text" "id1" (bulkSave envU1 emptySys c9Batch).2.backend =
      none :=
  ⟨by decide, by decide, by decide⟩

/-- C9, amended: bulk save is all-or-nothing.  A success result reports the
whole batch length as its saved count with an empty error list; a failure
result reports savedCount 0 with exactly one error message, and the backend
keeps its pre-call rows (the failed statement rolls back).  A partial count
is never reported. -/
theorem bulkSave_of_session {env : ClientEnv} {st : SysState} {updates : List BulkItem}
    {uid : String} (hs : env.session = some uid) :
    bulkSave env st updates =
      (match bulk_update_portfolio_data env.now (some uid) updates st.backend with
       | .error msg =>
         ({ success := false, savedCount := 0, errors := [msg] },
          { st with rpcUpserts := st.rpcUpserts + 1 })
       | .ok (n, b2) =>
         ({ success := true, savedCount := n, errors := [] },
          { backend := b2, events := st.events, rpcUpserts := st.rpcUpserts + 1 })) := by
  unfold bulkSave
  rw [hs]

theorem bulkSave_all_or_nothing (env : ClientEnv) (st : SysState)
    (updates : List BulkItem) (uid : String) (hs : env.session = some uid) :
    ((bulkSave env st updates).1.success = true →
      (bulkSave env st updates).1.savedCount = updates.length ∧
      (bulkSave env st updates).1.errors = []) ∧
    ((bulkSave env st updates).1.success = false →
      (bulkSave env st updates).1.savedCount = 0 ∧
      (bulkSave env st updates).2.backend = st.backend ∧
      (bulkSave env st updates).1.errors.length = 1) := by
  rw [bulkSave_of_session hs]
  cases hrpc : bulk_update_portfolio_data env.now (some uid) updates st.backend with
  | error msg =>
    refine ⟨fun h => ?_, fun _ => ⟨rfl, rfl, rfl⟩⟩
    simp at h
  | ok p =>
    obtain ⟨n, b2⟩ := p
    refine ⟨fun _ => ⟨?_, rfl⟩, fun h => ?_⟩
    · unfold bulk_update_portfolio_data at hrpc
      have := bulkLoop_count env.now uid updates 0 st.backend n b2 hrpc
      simpa using this
    · simp at h

/-- Witness for the amended C9 theorem: an all-accepted batch reports the
full count; the rejected batch reports zero. -/
theorem bulkSave_all_or_nothing_witness :
    (bulkSave envU1 emptySys c9GoodBatch).1.savedCount = c9GoodBatch.length ∧
    (bulkSave envU1 emptySys c9Batch).1.savedCount = 0 :=
  ⟨((bulkSave_all_or_nothing envU1 emptySys c9GoodBatch "u1" rfl).1 (by decide)).1,
   ((bulkSave_all_or_nothing envU1 emptySys c9Batch "u1" rfl).2 (by decide)).1⟩

/-! ### Claim C10 — reads never propagate errors -/

/-- C10.  `getElement` maps every RPC outcome to a plain optional value and
never rethrows: a failed read returns `null`, which is exactly the result
for a missing element, so the caller cannot distinguish "not found" from
"read failed". -/
theorem getElement_error_indistinguishable_from_missing :
    (∀ msg : String, getElementFromRpc (.error msg) = none) ∧
    getElementFromRpc (.ok []) = none ∧
    (∀ msg : String, getElementFromRpc (.error msg) = getElementFromRpc (.ok [])) :=
  ⟨fun _ => rfl, rfl, fun _ => rfl⟩

end VU
